import Mathlib

/-!
A verification development for the PokeProtocol reference implementation
(`protocol/message.py`, `protocol/reliability.py`, `protocol/game_logic.py`,
`protocol/state_machine.py`).

Embedding conventions:
* Python `str` values handled by the codec are modelled as `List Char`
  (named `PyStr`); elsewhere plain `String` is used.
* Python `dict` objects are modelled as association lists with
  insertion-order update semantics (`dictInsert`, `dictGet`, `dictRemove`).
* Python `float` values are modelled as exact rationals (`ℚ`); the float
  literal `1.3` is the rational `13/10`, `0.5` is `1/2`.
* Python `int` values are modelled as `ℤ` (retry counters, which the code
  only ever sets to `0` or increments, as `ℕ`).
* `int(x)` applied to a float is truncation toward zero (`pyTrunc`); applied
  to a string it is `pyToInt` (whitespace-stripped sign-and-digits parse;
  underscore separators and non-ASCII digits are not modelled).
* `str.lower()` is modelled by `pyLower` (ASCII case folding; all strings
  appearing in the protocol are ASCII).
-/

namespace PokeRFC

abbrev PyStr := List Char

/-- Characters accepted as whitespace by Python `str.strip()` / `str.isspace()`
(given by code point to avoid invisible literals). -/
def pyIsSpace (c : Char) : Bool :=
  c.toNat = 0x20 || c.toNat = 0x9 || c.toNat = 0xa || c.toNat = 0xd ||
  c.toNat = 0xb || c.toNat = 0xc ||
  c.toNat = 0x1c || c.toNat = 0x1d || c.toNat = 0x1e || c.toNat = 0x1f ||
  c.toNat = 0x85 || c.toNat = 0xa0 || c.toNat = 0x1680 ||
  (0x2000 <= c.toNat && c.toNat <= 0x200a) ||
  c.toNat = 0x2028 || c.toNat = 0x2029 || c.toNat = 0x202f ||
  c.toNat = 0x205f || c.toNat = 0x3000

/-- Python `str.strip()`: drop leading and trailing whitespace. -/
def pyStrip (l : PyStr) : PyStr :=
  ((l.dropWhile pyIsSpace).reverse.dropWhile pyIsSpace).reverse

/-- Line-boundary characters recognised by Python `str.splitlines()`
(`"\r\n"` additionally counts as a single boundary; code points used to
avoid invisible literals). -/
def isLineBoundary (c : Char) : Bool :=
  c.toNat = 0xa || c.toNat = 0xd || c.toNat = 0xb || c.toNat = 0xc ||
  c.toNat = 0x1c || c.toNat = 0x1d || c.toNat = 0x1e || c.toNat = 0x85 ||
  c.toNat = 0x2028 || c.toNat = 0x2029

/-- Python `str.splitlines()`. -/
def pySplitlines : PyStr → List PyStr
  | [] => []
  | '\r' :: '\n' :: cs => [] :: pySplitlines cs
  | c :: cs =>
    if isLineBoundary c then [] :: pySplitlines cs
    else
      match pySplitlines cs with
      | [] => [[c]]
      | l :: ls => (c :: l) :: ls

/-- Split at the first occurrence of the two-character pattern `": "`
(Python `raw.split(": ", 1)`); `none` when the pattern does not occur. -/
def splitOnColonSpace : PyStr → Option (PyStr × PyStr)
  | [] => none
  | c :: rest =>
    if c = ':' ∧ rest.head? = some ' ' then some ([], rest.tail)
    else (splitOnColonSpace rest).map (fun p => (c :: p.1, p.2))

/-- Split at the first `':'` (Python `raw.split(":", 1)`); `none` when absent. -/
def splitOnColon : PyStr → Option (PyStr × PyStr)
  | [] => none
  | c :: rest =>
    if c = ':' then some ([], rest)
    else (splitOnColon rest).map (fun p => (c :: p.1, p.2))

/-- Python `dict` assignment `m[k] = v`: update in place when the key exists,
append otherwise (insertion order preserved). -/
def dictInsert {K V : Type} [DecidableEq K] (k : K) (v : V) : List (K × V) → List (K × V)
  | [] => [(k, v)]
  | (k', v') :: rest => if k' = k then (k, v) :: rest else (k', v') :: dictInsert k v rest

/-- Python `m.get(k)`. -/
def dictGet {K V : Type} [DecidableEq K] (k : K) : List (K × V) → Option V
  | [] => none
  | (k', v') :: rest => if k' = k then some v' else dictGet k rest

/-- Python `m.get(k, d)`. -/
def dictGetD {K V : Type} [DecidableEq K] (k : K) (d : V) (m : List (K × V)) : V :=
  (dictGet k m).getD d

/-- Python `del m[k]` (on a dict the key occurs at most once). -/
def dictRemove {K V : Type} [DecidableEq K] (k : K) (m : List (K × V)) : List (K × V) :=
  m.filter (fun p => p.1 ≠ k)

/-- ASCII lowercase of one character (Python `str.lower()` restricted to
ASCII, which covers every string the protocol uses). -/
def pyLowerChar (c : Char) : Char :=
  if 65 <= c.toNat ∧ c.toNat <= 90 then Char.ofNat (c.toNat + 32) else c

/-- Python `s.lower()`. -/
def pyLower (s : String) : String :=
  ⟨s.data.map pyLowerChar⟩

/-- Numeric value of an ASCII decimal digit. -/
def digitVal (c : Char) : Option ℕ :=
  if '0' ≤ c ∧ c ≤ '9' then some (c.toNat - 48) else none

/-- Parse a non-empty all-digit string. -/
def parseDigits (l : PyStr) : Option ℕ :=
  match l with
  | [] => none
  | _ =>
    l.foldl (fun acc c =>
      match acc, digitVal c with
      | some n, some d => some (n * 10 + d)
      | _, _ => none) (some 0)

/-- Python `int(s)` on a string: strip whitespace, optional sign, decimal digits. -/
def pyToInt (s : String) : Option ℤ :=
  match pyStrip s.toList with
  | '-' :: ds => (parseDigits ds).map (fun n => -(n : ℤ))
  | '+' :: ds => (parseDigits ds).map (fun n => (n : ℤ))
  | ds => (parseDigits ds).map (fun n => (n : ℤ))

/-- Python `int(q)` on a float: truncation toward zero. -/
def pyTrunc (q : ℚ) : ℤ :=
  if 0 ≤ q then ⌊q⌋ else ⌈q⌉

-- ============================================================
-- protocol/message.py
-- ============================================================

/-- Field mappings handled by the codec (`Dict[str, str]`). -/
abbrev Fields := List (PyStr × PyStr)

/-- One encoded line `f"{k}: {val}"`, with `val = str(v).replace("\n", " ")`. -/
def encodeLine (k v : PyStr) : PyStr :=
  k ++ ':' :: ' ' :: v.map (fun c => if c = '\n' then ' ' else c)

/-- Python `"\n".join(lines)`. -/
def joinLines : List PyStr → PyStr
  | [] => []
  | [l] => l
  | l :: rest => l ++ '\n' :: joinLines rest

/-- `encode_message` (`protocol/message.py`): newline-joined `key: value`
lines; raises `ValueError` when a key contains `':'`. -/
def encode_message (fields : Fields) : Except Unit PyStr :=
  if fields.all (fun p => ¬ ':' ∈ p.1) then
    .ok (joinLines (fields.map fun p => encodeLine p.1 p.2))
  else .error ()

/-- Process the lines of `decode_message`, accumulating the result dict. -/
def decodeLines (msg : Fields) : List PyStr → Except Unit Fields
  | [] => .ok msg
  | raw :: rest =>
    if pyStrip raw = [] then decodeLines msg rest
    else
      match splitOnColonSpace raw with
      | some (k, v) => decodeLines (dictInsert (pyStrip k) (pyStrip v) msg) rest
      | none =>
        match splitOnColon raw with
        | some (k, v) => decodeLines (dictInsert (pyStrip k) (pyStrip v) msg) rest
        | none => .error ()

/-- `decode_message` (`protocol/message.py`): split into lines, skip blank
lines, parse `key: value` (or permissively `key:value`), raising
`MessageParseError` for a colon-free non-blank line. -/
def decode_message (data : PyStr) : Except Unit Fields :=
  if data = [] then .ok []
  else decodeLines [] (pySplitlines data)

-- ============================================================
-- protocol/reliability.py
-- ============================================================

/-- An (IPv4 string, UDP port) pair. -/
abbrev Addr := String × ℤ

/-- One entry of `ReliabilityLayer.pending`:
`(msg_bytes, addr, last_sent_time, retries)`. -/
structure PendingRec where
  msg : PyStr
  addr : Addr
  last : ℚ
  retries : ℕ
deriving DecidableEq

/-- The mutable state of `ReliabilityLayer` (`timeout`/`max_retries` are the
constructor parameters, `_seq` the counter, `pending` the dict keyed by
`(seq_number, addr)`). -/
structure RelState where
  timeout : ℚ
  max_retries : ℕ
  seq : ℤ
  pending : List ((ℤ × Addr) × PendingRec)
deriving DecidableEq

/-- `next_sequence_number`: increment the counter and return it. -/
def next_sequence_number (s : RelState) : ℤ × RelState :=
  (s.seq + 1, {s with seq := s.seq + 1})

/-- `send_reliable`: draw a sequence number, store it into the caller's
`fields` dict (Python stores the int; `encode_message` renders it with
`str`, so the stored value is modelled by its decimal string), encode, send
and track.  Returns the updated layer state, the mutated `fields` mapping and,
unless encoding raised, the encoded bytes with the sequence number. -/
def send_reliable (s : RelState) (fields : Fields) (addr : Addr) (now : ℚ) :
    RelState × Fields × Except Unit (PyStr × ℤ) :=
  let seq := s.seq + 1
  let fields' := dictInsert "sequence_number".toList (toString seq).toList fields
  match encode_message fields' with
  | .error e => ({s with seq := seq}, fields', .error e)
  | .ok b =>
    ({s with
        seq := seq
        pending := dictInsert (seq, addr) ⟨b, addr, now, 0⟩ s.pending},
     fields', .ok (b, seq))

/-- `send_reliable_to_many`: one sequence number, one encoding, one pending
record per destination. -/
def send_reliable_to_many (s : RelState) (fields : Fields) (addrs : List Addr) (now : ℚ) :
    RelState × Fields × Except Unit (PyStr × ℤ) :=
  let seq := s.seq + 1
  let fields' := dictInsert "sequence_number".toList (toString seq).toList fields
  match encode_message fields' with
  | .error e => ({s with seq := seq}, fields', .error e)
  | .ok b =>
    ({s with
        seq := seq
        pending := addrs.foldl (fun p addr => dictInsert (seq, addr) ⟨b, addr, now, 0⟩ p) s.pending},
     fields', .ok (b, seq))

/-- `handle_ack`: delete the pending record keyed `(ack_number, addr)`, if any. -/
def handle_ack (s : RelState) (ack_number : ℤ) (addr : Addr) : RelState :=
  {s with pending := dictRemove (ack_number, addr) s.pending}

/-- The scan of `tick` over the pending entries, in dict iteration order.
Returns the entries after the scan, the retransmitted datagrams, and whether
`ReliabilityError` was raised (the raise aborts the scan, leaving the
remaining entries untouched). -/
def tickScan (timeout : ℚ) (maxR : ℕ) (now : ℚ) :
    List ((ℤ × Addr) × PendingRec) →
    List ((ℤ × Addr) × PendingRec) × List (PyStr × Addr) × Bool
  | [] => ([], [], false)
  | (k, r) :: rest =>
    if timeout < now - r.last then
      if maxR ≤ r.retries then ((k, r) :: rest, [], true)
      else
        let res := tickScan timeout maxR now rest
        ((k, {r with last := now, retries := r.retries + 1}) :: res.1,
         (r.msg, r.addr) :: res.2.1, res.2.2)
    else
      let res := tickScan timeout maxR now rest
      ((k, r) :: res.1, res.2.1, res.2.2)

/-- `tick`: retransmit every timed-out pending record whose retry count is
below `max_retries`; raise `ReliabilityError` (final `Bool`) at the first
timed-out record that has exhausted its retries. -/
def tick (s : RelState) (now : ℚ) : RelState × List (PyStr × Addr) × Bool :=
  let res := tickScan s.timeout s.max_retries now s.pending
  ({s with pending := res.1}, res.2.1, res.2.2)

-- ============================================================
-- protocol/game_logic.py
-- ============================================================

/-- `Move` dataclass (floats as exact rationals). -/
structure Move where
  name : String
  power : ℚ
  damage_category : String
  type : String
  scale_with_hp : Bool := false
  hp_ratio : ℚ := 1/2
  power_min : ℚ := 35
  power_max : ℚ := 110
deriving DecidableEq

/-- `BattlePokemon` dataclass (floats as exact rationals; `abilities = None`
and `effectiveness = None` are modelled by the empty list, which the code
treats identically via truthiness / absent lookups). -/
structure BattlePokemon where
  name : String
  max_hp : ℤ
  hp : ℤ
  attack : ℚ
  special_attack : ℚ
  defense : ℚ
  special_defense : ℚ
  types : List String
  abilities : List String := []
  special_attack_uses : ℤ := 0
  special_defense_uses : ℤ := 0
  effectiveness : List (String × ℚ) := []
deriving DecidableEq

/-- `get_effective_move_power`: HP-scaled power clamped to
`[power_min, power_max]` when `scale_with_hp`, else `move.power`. -/
def get_effective_move_power (move : Move) (attacker : BattlePokemon) : ℚ :=
  if move.scale_with_hp then
    max move.power_min (min move.power_max ((attacker.max_hp : ℚ) * move.hp_ratio))
  else move.power

/-- `get_type_effectiveness`: `defender.effectiveness.get(move_type.lower(), 1.0)`. -/
def get_type_effectiveness (move_type : String) (defender : BattlePokemon) : ℚ :=
  dictGetD (pyLower move_type) 1 defender.effectiveness

/-- `calculate_damage` (`protocol/game_logic.py`).  The function mutates the
two creatures (uses counters); the embedding returns
`(damage, attacker_after, defender_after)`. -/
def calculate_damage (attacker defender : BattlePokemon) (move : Move) :
    ℤ × BattlePokemon × BattlePokemon :=
  if move.damage_category = "status" then (0, attacker, defender)
  else
    let stats : ℚ × ℚ :=
      if move.damage_category = "physical" then
        (if attacker.abilities.any (fun a => pyLower a = "huge power")
         then attacker.attack * 2 else attacker.attack,
         defender.defense)
      else (attacker.special_attack, defender.special_defense)
    let atk_stat :=
      if move.damage_category = "special" ∧ 0 < attacker.special_attack_uses
      then stats.1 * (13/10) else stats.1
    let attacker' :=
      if move.damage_category = "special" ∧ 0 < attacker.special_attack_uses
      then {attacker with special_attack_uses := attacker.special_attack_uses - 1}
      else attacker
    let def_stat0 :=
      if move.damage_category = "special" ∧ 0 < defender.special_defense_uses
      then stats.2 * (13/10) else stats.2
    let defender' :=
      if move.damage_category = "special" ∧ 0 < defender.special_defense_uses
      then {defender with special_defense_uses := defender.special_defense_uses - 1}
      else defender
    let def_stat := max def_stat0 1
    let te0 := get_type_effectiveness move.type defender'
    let te :=
      if defender'.abilities.any (fun a => pyLower a = "thick fat") ∧
          (pyLower move.type = "fire" ∨ pyLower move.type = "ice")
      then te0 * (1/2) else te0
    let effective_power := get_effective_move_power move attacker'
    let raw := effective_power * atk_stat * te / def_stat
    (max 1 (pyTrunc raw), attacker', defender')

/-- Spec-side damage algorithm, transcribed from spec §4.5 steps 1-8 (with
step 7 being the §3 effective-power clause, `clamp(x, lo, hi) =
max lo (min hi x)`), for the refinement claim C1. -/
def damage_spec (attacker defender : BattlePokemon) (move : Move) :
    ℤ × BattlePokemon × BattlePokemon :=
  if move.damage_category = "status" then (0, attacker, defender)
  else
    let stats : ℚ × ℚ :=
      if move.damage_category = "physical" then
        (if "huge power" ∈ attacker.abilities then 2 * attacker.attack else attacker.attack,
         defender.defense)
      else (attacker.special_attack, defender.special_defense)
    let atkStat :=
      if move.damage_category = "special" ∧ 0 < attacker.special_attack_uses
      then (13/10) * stats.1 else stats.1
    let attacker' :=
      if move.damage_category = "special" ∧ 0 < attacker.special_attack_uses
      then {attacker with special_attack_uses := attacker.special_attack_uses - 1}
      else attacker
    let defStat0 :=
      if move.damage_category = "special" ∧ 0 < defender.special_defense_uses
      then (13/10) * stats.2 else stats.2
    let defender' :=
      if move.damage_category = "special" ∧ 0 < defender.special_defense_uses
      then {defender with special_defense_uses := defender.special_defense_uses - 1}
      else defender
    let defStat := max defStat0 1
    let eff0 := dictGetD move.type 1 defender.effectiveness
    let eff :=
      if "thick fat" ∈ defender.abilities ∧ (move.type = "fire" ∨ move.type = "ice")
      then eff0 * (1/2) else eff0
    let p :=
      if move.scale_with_hp then
        max move.power_min (min move.power_max ((attacker.max_hp : ℚ) * move.hp_ratio))
      else move.power
    let raw := p * atkStat * eff / defStat
    (max 1 ⌊raw⌋, attacker', defender')

-- ============================================================
-- protocol/state_machine.py
-- ============================================================

/-- The local calculation report (`report` dict built in
`send_calculation_report`; its values are ints and strings). -/
structure CalcReport where
  attacker : String
  move_used : String
  remaining_health : ℤ
  damage_dealt : ℤ
  defender_hp_remaining : ℤ
  status_message : String
deriving DecidableEq

/-- Outbound battle messages of the state machine, with the fields the code
puts into each dict. -/
inductive OutMsg where
  | calcReport (r : CalcReport)
  | gameOver (winner loser : String)
  | calcConfirm
  | resolutionRequest (attacker move_used damage_dealt defender_hp_remaining : String)
deriving DecidableEq

/-- A decoded incoming message (all values strings). -/
abbrev MsgDict := List (String × String)

/-- The fields of `ProtocolStateMachine` that the battle handlers read or
write. -/
structure SMState where
  role : String
  turn_owner : Option String
  state : String
  running : Bool
  local_pokemon : Option BattlePokemon
  remote_pokemon : Option BattlePokemon
  local_calc_report : Option CalcReport
  last_calc_report_remote : Option MsgDict
deriving DecidableEq

/-- `require_fields` (`protocol/message.py`), projected to its boolean part. -/
def require_fields (msg : MsgDict) (req : List String) : Bool :=
  req.all (fun f => (dictGet f msg).isSome)

/-- The effectiveness wording appended to `status_message` in
`send_calculation_report`. -/
def effectivenessSuffix (eff : ℚ) : String :=
  if eff = 0 then " It had no effect."
  else if 3/2 ≤ eff then " It was super effective!"
  else if eff < 1 then " It was not very effective."
  else ""

/-- `send_calculation_report` (`protocol/state_machine.py`): pick attacker
and defender by `turn_owner`, run the damage engine, apply
`defender.hp -= dmg` (unclamped), build and send the report, and send
`GAME_OVER` when the stored defender hp dropped to `≤ 0`.  `none` models the
`RuntimeError` raised when a creature is missing (the move object, looked up
from `MOVES_DB`, is passed in directly). -/
def send_calculation_report (s : SMState) (move_name : String) (move : Move) :
    Option (SMState × List OutMsg) :=
  match s.local_pokemon, s.remote_pokemon with
  | some lp, some rp =>
    let localIsAttacker := s.turn_owner = some "LOCAL"
    let atk := if localIsAttacker then lp else rp
    let df := if localIsAttacker then rp else lp
    let res := calculate_damage atk df move
    let dmg := res.1
    let atk' := res.2.1
    let df' := {res.2.2 with hp := res.2.2.hp - dmg}
    let defender_remaining := max df'.hp 0
    let eff := get_type_effectiveness move.type df'
    let report : CalcReport := {
      attacker := atk.name
      move_used := move_name
      remaining_health := atk'.hp
      damage_dealt := dmg
      defender_hp_remaining := defender_remaining
      status_message := atk.name ++ " used " ++ move_name ++ "!" ++ effectivenessSuffix eff }
    let s' := { s with
      local_pokemon := if localIsAttacker then some atk' else some df'
      remote_pokemon := if localIsAttacker then some df' else some atk'
      local_calc_report := some report }
    let msgs := [OutMsg.calcReport report] ++
      (if df'.hp ≤ 0 then [OutMsg.gameOver atk.name df.name] else [])
    some (s', msgs)
  | _, _ => none

/-- `_on_calculation_report`: store the remote report; when the local report
exists and the remote integer fields parse, send `CALCULATION_CONFIRM` when
both `damage_dealt` and `defender_hp_remaining` agree, else send
`RESOLUTION_REQUEST` with the local report's values. -/
def on_calculation_report (s : SMState) (msg : MsgDict) : SMState × List OutMsg :=
  if require_fields msg ["attacker", "move_used", "damage_dealt", "defender_hp_remaining"] then
    let s1 := {s with last_calc_report_remote := some msg}
    match s.local_calc_report with
    | none => (s1, [])
    | some l =>
      match (dictGet "damage_dealt" msg).bind pyToInt,
            (dictGet "defender_hp_remaining" msg).bind pyToInt with
      | some rdmg, some rhp =>
        if l.damage_dealt = rdmg ∧ l.defender_hp_remaining = rhp then
          (s1, [OutMsg.calcConfirm])
        else
          (s1, [OutMsg.resolutionRequest l.attacker l.move_used
                  (toString l.damage_dealt) (toString l.defender_hp_remaining)])
      | _, _ => (s1, [])
  else (s, [])

/-- `_on_calculation_confirm`: flip `turn_owner`, clear both per-turn report
buffers, return to `WAITING_FOR_MOVE`. -/
def on_calculation_confirm (s : SMState) : SMState :=
  { s with
    turn_owner := some (if s.turn_owner = some "LOCAL" then "REMOTE" else "LOCAL")
    local_calc_report := none
    last_calc_report_remote := none
    state := "WAITING_FOR_MOVE" }

/-- `_on_resolution_request`: when the integer fields parse, identify the
defender of the reported turn by matching `attacker` against the remote
creature's name, overwrite that defender's hp with the received value
(unclamped), then flip `turn_owner` and return to `WAITING_FOR_MOVE`.
There is no guard on `turn_owner` or on the phase. -/
def on_resolution_request (s : SMState) (msg : MsgDict) : SMState :=
  match (dictGet "damage_dealt" msg).bind pyToInt,
        (dictGet "defender_hp_remaining" msg).bind pyToInt with
  | some _, some hp =>
    let s1 :=
      match dictGet "attacker" msg with
      | some attacker_name =>
        match s.remote_pokemon with
        | some rp =>
          if attacker_name = rp.name then
            match s.local_pokemon with
            | some lp => {s with local_pokemon := some {lp with hp := hp}}
            | none => s
          else {s with remote_pokemon := some {rp with hp := hp}}
        | none => s
      | none => s
    { s1 with
      turn_owner := some (if s1.turn_owner = some "LOCAL" then "REMOTE" else "LOCAL")
      state := "WAITING_FOR_MOVE" }
  | _, _ => s

/-- `_on_game_over`: print and set `running = False`. -/
def on_game_over (s : SMState) : SMState :=
  {s with running := false}

/-- The `ACK` branch of `handle_incoming` (`protocol/state_machine.py`,
lines 239-246).  The code reads `ack_num = msg.get("ack_number")` and, when
truthy and `int(ack_num)` parses, executes `self.r.handle_ack(int(ack_num))`.
`ReliabilityLayer.handle_ack` declares two required parameters
`(ack_number, addr)`, so this one-argument call raises `TypeError` (which the
surrounding `except ValueError` does not catch); the pending map is never
touched.  The embedding returns `Except.error` for that raise. -/
def handle_incoming_ack (r : RelState) (msg : MsgDict) : Except String RelState :=
  match dictGet "ack_number" msg with
  | none => .ok r
  | some v =>
    if v = "" then .ok r
    else
      match pyToInt v with
      | some _ => .error "TypeError: handle_ack() missing 1 required positional argument: addr"
      | none => .ok r

-- ============================================================
-- Theorems
-- ============================================================

/-- Attacker used in concrete damage-engine evaluations. -/
def cAtk : BattlePokemon :=
  { name := "Attacker"
    max_hp := 10
    hp := 10
    attack := 5
    special_attack := 5
    defense := 5
    special_defense := 5
    types := ["normal"] }

/-- Defender with a zero `fire` effectiveness entry and no abilities. -/
def cDefZero : BattlePokemon :=
  { name := "Defender"
    max_hp := 10
    hp := 10
    attack := 5
    special_attack := 5
    defense := 5
    special_defense := 5
    types := ["normal"]
    effectiveness := [("fire", 0)] }

/-- A non-status special fire move. -/
def cFireMove : Move :=
  { name := "Ember"
    power := 50
    damage_category := "special"
    type := "fire" }

/-- C3 (counterexample): for a defender whose effectiveness entry for the
move's type is 0 and who has no abilities, and a non-status move,
`calculate_damage` returns 1 — not 0 as the claim states (the code ends with
`return max(1, dmg)`, which never yields 0 for a non-status move). -/
theorem c3_zero_effectiveness_counterexample :
    dictGet "fire" cDefZero.effectiveness = some 0 ∧
    cDefZero.abilities = [] ∧
    cFireMove.damage_category ≠ "status" ∧
    cFireMove.type = "fire" ∧
    (calculate_damage cAtk cDefZero cFireMove).1 = 1 ∧ ((1 : ℤ) ≠ 0) := by
  refine ⟨by decide, rfl, by decide, rfl, ?_, by decide⟩
  have h1 : ¬ ("special" = "status") := by decide
  have h2 : pyLower "fire" = "fire" := by decide
  have h3 : ¬ ("special" = "physical") := by decide
  norm_num [calculate_damage, cAtk, cDefZero, cFireMove, get_type_effectiveness,
    get_effective_move_power, dictGetD, dictGet, pyTrunc, h1, h2, h3]

/-- C3 (amended): for every attacker, defender and non-status move, if the
defender's effectiveness entry for the move's type is 0, `calculate_damage`
returns 1 (the minimum-damage clamp), regardless of the stats, the move
power and the defender's abilities (`thick fat` multiplies the zero entry by
0.5, leaving it zero). -/
theorem c3_zero_effectiveness_amended (a d : BattlePokemon) (m : Move)
    (h1 : m.damage_category ≠ "status")
    (h2 : dictGetD (pyLower m.type) 1 d.effectiveness = 0) :
    (calculate_damage a d m).1 = 1 := by
  simp only [calculate_damage, get_type_effectiveness, get_effective_move_power, if_neg h1]
  split_ifs <;>
    simp_all [dictGetD, pyTrunc, mul_zero, zero_mul, zero_div]

/-- Looking up the freshly inserted key. -/
theorem dictGet_insert_self {K V : Type} [DecidableEq K] (k : K) (v : V) (m : List (K × V)) :
    dictGet k (dictInsert k v m) = some v := by
  induction m with
  | nil => simp [dictInsert, dictGet]
  | cons p rest ih =>
    by_cases h : p.1 = k <;> simp [dictInsert, dictGet, h, ih]

/-- Other keys are untouched by `dictInsert`. -/
theorem dictGet_insert_ne {K V : Type} [DecidableEq K] (k k' : K) (v : V)
    (m : List (K × V)) (h : k' ≠ k) :
    dictGet k' (dictInsert k v m) = dictGet k' m := by
  have hk : ¬ (k = k') := fun e => h e.symm
  induction m with
  | nil => simp [dictInsert, dictGet, hk]
  | cons p rest ih =>
    by_cases hp : p.1 = k
    · subst hp
      simp [dictInsert, dictGet, hk]
    · simp [dictInsert, dictGet, hp, ih]

/-- Membership after a `dictInsert`. -/
theorem mem_dictInsert {K V : Type} [DecidableEq K] (e : K × V) (k : K) (v : V)
    (m : List (K × V)) (h : e ∈ dictInsert k v m) : e = (k, v) ∨ e ∈ m := by
  induction m with
  | nil => simpa [dictInsert] using h
  | cons p rest ih =>
    obtain ⟨pk, pv⟩ := p
    by_cases hp : pk = k
    · rw [dictInsert, if_pos hp, List.mem_cons] at h
      rcases h with h1 | h1
      · exact Or.inl h1
      · exact Or.inr (List.mem_cons_of_mem _ h1)
    · rw [dictInsert, if_neg hp, List.mem_cons] at h
      rcases h with h1 | h1
      · exact Or.inr (by simp [h1])
      · rcases ih h1 with h2 | h2
        · exact Or.inl h2
        · exact Or.inr (List.mem_cons_of_mem _ h2)

/-- A nonnegative-entry dict lookup with nonnegative default is nonnegative. -/
theorem dictGetD_nonneg (k : String) (d : ℚ) (m : List (String × ℚ))
    (hm : ∀ p ∈ m, 0 ≤ p.2) (hd : 0 ≤ d) : 0 ≤ dictGetD k d m := by
  induction m with
  | nil => simpa [dictGetD, dictGet]
  | cons p rest ih =>
    by_cases hp : p.1 = k
    · simpa [dictGetD, dictGet, hp] using hm p (List.mem_cons_self _ _)
    · simpa [dictGetD, dictGet, hp] using
        ih (fun q hq => hm q (List.mem_cons_of_mem _ hq))

/-- The damage engine does not change names, hp or max hp, and its damage
value is never negative. -/
theorem calculate_damage_preserves (a d : BattlePokemon) (m : Move) :
    (calculate_damage a d m).2.1.name = a.name ∧
    (calculate_damage a d m).2.1.hp = a.hp ∧
    (calculate_damage a d m).2.2.name = d.name ∧
    (calculate_damage a d m).2.2.hp = d.hp ∧
    (calculate_damage a d m).2.2.max_hp = d.max_hp ∧
    0 ≤ (calculate_damage a d m).1 := by
  unfold calculate_damage
  split_ifs <;> simp_all

/-- C3 (witness for the amended theorem). -/
theorem c3_zero_effectiveness_amended_witness :
    cFireMove.damage_category ≠ "status" ∧
    dictGetD (pyLower cFireMove.type) 1 cDefZero.effectiveness = 0 ∧
    (calculate_damage cAtk cDefZero cFireMove).1 = 1 :=
  ⟨by decide, by decide,
    c3_zero_effectiveness_amended cAtk cDefZero cFireMove (by decide) (by decide)⟩

/-- State used to exercise `_on_resolution_request`: the local peer is the
attacker of the current turn (`turn_owner = LOCAL`). -/
def rrState : SMState :=
  { role := "HOST"
    turn_owner := some "LOCAL"
    state := "WAITING_FOR_DEFENSE"
    running := true
    local_pokemon := some cAtk
    remote_pokemon := some cDefZero
    local_calc_report := none
    last_calc_report_remote := none }

/-- A `RESOLUTION_REQUEST` naming the remote creature as attacker. -/
def rrMsg : MsgDict :=
  [("message_type", "RESOLUTION_REQUEST"), ("attacker", "Defender"),
   ("move_used", "Ember"), ("damage_dealt", "7"), ("defender_hp_remaining", "3")]

/-- C5 (counterexample): a peer whose `turn_owner` is `LOCAL` (the attacker of
the current turn) does **not** ignore a received `RESOLUTION_REQUEST`: its
local creature's hp (10) is overwritten with the received value (3).  The
handler has no guard on `turn_owner`. -/
theorem c5_attacker_accepts_resolution_counterexample :
    rrState.turn_owner = some "LOCAL" ∧
    rrState.local_pokemon = some cAtk ∧ cAtk.hp = 10 ∧
    (on_resolution_request rrState rrMsg).local_pokemon = some {cAtk with hp := 3} ∧
    ((3 : ℤ) ≠ 10) := by
  exact ⟨rfl, rfl, rfl, rfl, by decide⟩

/-- C5 (amended): **every** peer — for any value of `turn_owner`, in
particular the attacker — that receives a `RESOLUTION_REQUEST` whose integer
fields parse and whose `attacker` field names the remote creature overwrites
its local creature's hp with `defender_hp_remaining`, flips `turn_owner` and
returns to `WAITING_FOR_MOVE`. -/
theorem c5_resolution_no_turn_guard (s : SMState) (msg : MsgDict)
    (lp rp : BattlePokemon) (dd hpv : ℤ) (an : String)
    (hlp : s.local_pokemon = some lp)
    (hrp : s.remote_pokemon = some rp)
    (ha : dictGet "attacker" msg = some an)
    (han : an = rp.name)
    (hd : (dictGet "damage_dealt" msg).bind pyToInt = some dd)
    (hh : (dictGet "defender_hp_remaining" msg).bind pyToInt = some hpv) :
    (on_resolution_request s msg).local_pokemon = some {lp with hp := hpv} ∧
    (on_resolution_request s msg).remote_pokemon = s.remote_pokemon ∧
    (on_resolution_request s msg).turn_owner =
      some (if s.turn_owner = some "LOCAL" then "REMOTE" else "LOCAL") ∧
    (on_resolution_request s msg).state = "WAITING_FOR_MOVE" := by
  subst han
  simp [on_resolution_request, hd, hh, ha, hrp, hlp]

/-- C5 (witness for the amended theorem). -/
theorem c5_resolution_no_turn_guard_witness :
    (on_resolution_request rrState rrMsg).local_pokemon = some {cAtk with hp := 3} ∧
    (on_resolution_request rrState rrMsg).remote_pokemon = rrState.remote_pokemon ∧
    (on_resolution_request rrState rrMsg).turn_owner =
      some (if rrState.turn_owner = some "LOCAL" then "REMOTE" else "LOCAL") ∧
    (on_resolution_request rrState rrMsg).state = "WAITING_FOR_MOVE" :=
  c5_resolution_no_turn_guard rrState rrMsg cAtk cDefZero 7 3 "Defender"
    rfl rfl rfl rfl (by decide) (by decide)

/-- Destination with one tracked message. -/
def ackAddr : Addr := ("127.0.0.1", 5555)

/-- Reliability state with one pending record keyed `(1, ackAddr)`. -/
def ackState : RelState :=
  { timeout := 1/2
    max_retries := 3
    seq := 1
    pending := [((1, ackAddr), ⟨['x'], ackAddr, 0, 0⟩)] }

/-- The matching ACK message as decoded by the state machine. -/
def ackMsg : MsgDict := [("message_type", "ACK"), ("ack_number", "1")]

/-- C2: `ReliabilityLayer.handle_ack` itself removes exactly the record keyed
`(sequenceNumber, destAddress)` — but the state machine's `handle_incoming`
dispatches an incoming ACK as `self.r.handle_ack(int(ack_num))`, omitting the
required `addr` parameter, so Python raises `TypeError` (not caught by the
surrounding `except ValueError`) and the pending record is never removed. -/
theorem c2_ack_dispatch_type_error :
    (handle_ack ackState 1 ackAddr).pending = [] ∧
    handle_incoming_ack ackState ackMsg =
      .error "TypeError: handle_ack() missing 1 required positional argument: addr" ∧
    ackState.pending ≠ [] := by
  exact ⟨by decide, rfl, by decide⟩

/-- A plain physical move. -/
def tackleMove : Move :=
  { name := "Tackle"
    power := 40
    damage_category := "physical"
    type := "normal" }

/-- A processing-turn state in which the local attacker is about to KO the
remote defender (hp 10, incoming damage 40). -/
def koState : SMState :=
  { role := "HOST"
    turn_owner := some "LOCAL"
    state := "PROCESSING_TURN"
    running := true
    local_pokemon := some cAtk
    remote_pokemon := some cDefZero
    local_calc_report := none
    last_calc_report_remote := none }

/-- The report produced by the KO turn. -/
def koReport : CalcReport :=
  { attacker := "Attacker"
    move_used := "Tackle"
    remaining_health := 10
    damage_dealt := 40
    defender_hp_remaining := 0
    status_message := "Attacker used Tackle!" }

/-- The state after the KO turn: stored remote hp is `10 - 40 = -30`. -/
def koStateAfter : SMState :=
  { koState with
    local_pokemon := some cAtk
    remote_pokemon := some {cDefZero with hp := -30}
    local_calc_report := some koReport }

/-- The messages sent by the KO turn. -/
def koMsgs : List OutMsg :=
  [OutMsg.calcReport koReport, OutMsg.gameOver "Attacker" "Defender"]

/-- Evaluation of `send_calculation_report` on the KO turn. -/
theorem koRun :
    send_calculation_report koState "Tackle" tackleMove = some (koStateAfter, koMsgs) := by
  have h1 : ¬ ("physical" = "status") := by decide
  have h2 : ¬ ("physical" = "special") := by decide
  have h3 : pyLower "normal" = "normal" := by decide
  have h4 : ¬ ("fire" = "normal") := by decide
  norm_num [send_calculation_report, koState, koStateAfter, koReport, koMsgs,
    tackleMove, cAtk, cDefZero,
    calculate_damage, get_type_effectiveness, get_effective_move_power,
    effectivenessSuffix, dictGetD, dictGet, pyTrunc, h1, h2, h3, h4]
  decide

/-- C7 (counterexample): after a KO, `send_calculation_report` does send
`GAME_OVER {winner = attacker, loser = defender}`, but it leaves `running`
unchanged (`true`) on the sender's side — the claim's "sets running = false
on its own side" fails. -/
theorem c7_sender_keeps_running_counterexample :
    koState.running = true ∧
    ((send_calculation_report koState "Tackle" tackleMove).map
        (fun r => (r.2, r.1.running)))
      = some ([OutMsg.calcReport koReport, OutMsg.gameOver "Attacker" "Defender"], true) := by
  rw [koRun]
  exact ⟨rfl, rfl⟩

/-- C4 (counterexample): the damage application in `send_calculation_report`
executes `defender.hp -= dmg` without clamping; after the KO the stored
remote hp is `-30 < 0`, violating `0 ≤ hp`. -/
theorem c4_negative_hp_counterexample :
    ((send_calculation_report koState "Tackle" tackleMove).map
        (fun r => r.1.remote_pokemon.map BattlePokemon.hp)) = some (some (-30)) ∧
    ¬ (0 ≤ (-30 : ℤ)) := by
  rw [koRun]
  exact ⟨rfl, by decide⟩

/-- C7 (amended): `send_calculation_report` sends `GAME_OVER` exactly when the
damage application has driven the stored defender hp to `≤ 0`, with the
attacker as winner and the defender as loser; but it leaves `running`
unchanged on the sender's side — only the *receiver* of `GAME_OVER`
(`_on_game_over`) sets `running = false`. -/
theorem c7_game_over_emission (s : SMState) (mn : String) (mv : Move)
    (lp rp : BattlePokemon) (s' : SMState) (msgs : List OutMsg)
    (hlp : s.local_pokemon = some lp) (hrp : s.remote_pokemon = some rp)
    (h : send_calculation_report s mn mv = some (s', msgs)) :
    ((OutMsg.gameOver (if s.turn_owner = some "LOCAL" then lp else rp).name
        (if s.turn_owner = some "LOCAL" then rp else lp).name ∈ msgs) ↔
      (if s.turn_owner = some "LOCAL" then rp else lp).hp -
        (calculate_damage (if s.turn_owner = some "LOCAL" then lp else rp)
          (if s.turn_owner = some "LOCAL" then rp else lp) mv).1 ≤ 0) ∧
    (∀ w l, OutMsg.gameOver w l ∈ msgs →
      w = (if s.turn_owner = some "LOCAL" then lp else rp).name ∧
      l = (if s.turn_owner = some "LOCAL" then rp else lp).name) ∧
    s'.running = s.running ∧
    (∀ t : SMState, (on_game_over t).running = false) := by
  obtain ⟨hn1, hn2, hn3, hdhp, hn5, hn6⟩ :=
    calculate_damage_preserves (if s.turn_owner = some "LOCAL" then lp else rp)
      (if s.turn_owner = some "LOCAL" then rp else lp) mv
  simp only [send_calculation_report, hlp, hrp, Option.some_inj] at h
  obtain ⟨hs, hm⟩ := Prod.ext_iff.mp h
  subst hs
  subst hm
  by_cases hko : (if s.turn_owner = some "LOCAL" then rp else lp).hp -
      (calculate_damage (if s.turn_owner = some "LOCAL" then lp else rp)
        (if s.turn_owner = some "LOCAL" then rp else lp) mv).1 ≤ 0
  · refine ⟨by simp [hko, hdhp], ?_, rfl, fun t => rfl⟩
    intro w l hw
    simp only [hdhp, hko, if_true, List.mem_append, List.mem_singleton,
      List.mem_cons, List.not_mem_nil, or_false] at hw
    rcases hw with hw | hw
    · cases hw
    · obtain ⟨h1, h2⟩ := OutMsg.gameOver.inj hw
      exact ⟨h1, h2⟩
  · refine ⟨by simp [hko, hdhp], ?_, rfl, fun t => rfl⟩
    intro w l hw
    simp only [hdhp, hko, if_false, List.mem_append, List.mem_singleton,
      List.mem_cons, List.not_mem_nil, or_false] at hw
    cases hw

/-- C7 (witness for the amended theorem). -/
theorem c7_game_over_emission_witness :
    ((OutMsg.gameOver (if koState.turn_owner = some "LOCAL" then cAtk else cDefZero).name
        (if koState.turn_owner = some "LOCAL" then cDefZero else cAtk).name ∈ koMsgs) ↔
      (if koState.turn_owner = some "LOCAL" then cDefZero else cAtk).hp -
        (calculate_damage (if koState.turn_owner = some "LOCAL" then cAtk else cDefZero)
          (if koState.turn_owner = some "LOCAL" then cDefZero else cAtk) tackleMove).1 ≤ 0) ∧
    (∀ w l, OutMsg.gameOver w l ∈ koMsgs →
      w = (if koState.turn_owner = some "LOCAL" then cAtk else cDefZero).name ∧
      l = (if koState.turn_owner = some "LOCAL" then cDefZero else cAtk).name) ∧
    koStateAfter.running = koState.running ∧
    (∀ t : SMState, (on_game_over t).running = false) :=
  c7_game_over_emission koState "Tackle" tackleMove cAtk cDefZero koStateAfter koMsgs
    rfl rfl koRun

/-- C4 (amended): the damage application in `send_calculation_report` stores
`defender.hp - damage` with `damage ≥ 0` — so the stored hp never increases
(preserving `hp ≤ maxHp` at that site, `maxHp` being unchanged) but may drop
below 0; only the report field `defender_hp_remaining` is clamped to `≥ 0`.
`_on_resolution_request` overwrites the identified defender's hp with exactly
the received value, without clamping to either bound. -/
theorem c4_hp_update_amended (s : SMState) (mn : String) (mv : Move)
    (lp rp : BattlePokemon) (s' : SMState) (msgs : List OutMsg)
    (hlp : s.local_pokemon = some lp) (hrp : s.remote_pokemon = some rp)
    (h : send_calculation_report s mn mv = some (s', msgs)) :
    (0 ≤ (calculate_damage (if s.turn_owner = some "LOCAL" then lp else rp)
        (if s.turn_owner = some "LOCAL" then rp else lp) mv).1) ∧
    ((if s.turn_owner = some "LOCAL" then s'.remote_pokemon else s'.local_pokemon).map
        BattlePokemon.hp =
      some ((if s.turn_owner = some "LOCAL" then rp else lp).hp -
        (calculate_damage (if s.turn_owner = some "LOCAL" then lp else rp)
          (if s.turn_owner = some "LOCAL" then rp else lp) mv).1)) ∧
    ((if s.turn_owner = some "LOCAL" then s'.remote_pokemon else s'.local_pokemon).map
        BattlePokemon.max_hp =
      some (if s.turn_owner = some "LOCAL" then rp else lp).max_hp) ∧
    (∀ rep, OutMsg.calcReport rep ∈ msgs → 0 ≤ rep.defender_hp_remaining) ∧
    (∀ (t : SMState) (msg : MsgDict) (lp2 rp2 : BattlePokemon) (dd hv : ℤ) (an : String),
      t.local_pokemon = some lp2 → t.remote_pokemon = some rp2 →
      dictGet "attacker" msg = some an → an = rp2.name →
      (dictGet "damage_dealt" msg).bind pyToInt = some dd →
      (dictGet "defender_hp_remaining" msg).bind pyToInt = some hv →
      (on_resolution_request t msg).local_pokemon = some {lp2 with hp := hv}) := by
  obtain ⟨hn1, hn2, hn3, hdhp, hmax, hnn⟩ :=
    calculate_damage_preserves (if s.turn_owner = some "LOCAL" then lp else rp)
      (if s.turn_owner = some "LOCAL" then rp else lp) mv
  simp only [send_calculation_report, hlp, hrp, Option.some_inj] at h
  obtain ⟨hs, hm⟩ := Prod.ext_iff.mp h
  subst hs
  subst hm
  refine ⟨hnn, ?_, ?_, ?_, ?_⟩
  · by_cases ht : s.turn_owner = some "LOCAL"
    · simp [ht] at hdhp ⊢
      simp [hdhp]
    · simp [ht] at hdhp ⊢
      simp [hdhp]
  · by_cases ht : s.turn_owner = some "LOCAL"
    · simp [ht] at hmax ⊢
      simp [hmax]
    · simp [ht] at hmax ⊢
      simp [hmax]
  · intro rep hrep
    simp only [List.mem_append, List.mem_singleton, List.mem_cons,
      List.not_mem_nil, or_false] at hrep
    rcases hrep with hrep | hrep
    · obtain h1 := OutMsg.calcReport.inj hrep
      subst h1
      exact le_max_right _ _
    · by_cases hko : ((calculate_damage (if s.turn_owner = some "LOCAL" then lp else rp)
          (if s.turn_owner = some "LOCAL" then rp else lp) mv).2.2.hp -
          (calculate_damage (if s.turn_owner = some "LOCAL" then lp else rp)
            (if s.turn_owner = some "LOCAL" then rp else lp) mv).1 ≤ 0) <;>
        simp [hko] at hrep
  · intro t msg lp2 rp2 dd hv an h1 h2 h3 h4 h5 h6
    subst h4
    simp [on_resolution_request, h1, h2, h3, h5, h6]

/-- C4 (witness for the amended theorem). -/
theorem c4_hp_update_amended_witness :
    (0 ≤ (calculate_damage (if koState.turn_owner = some "LOCAL" then cAtk else cDefZero)
        (if koState.turn_owner = some "LOCAL" then cDefZero else cAtk) tackleMove).1) ∧
    ((if koState.turn_owner = some "LOCAL" then koStateAfter.remote_pokemon
        else koStateAfter.local_pokemon).map BattlePokemon.hp =
      some ((if koState.turn_owner = some "LOCAL" then cDefZero else cAtk).hp -
        (calculate_damage (if koState.turn_owner = some "LOCAL" then cAtk else cDefZero)
          (if koState.turn_owner = some "LOCAL" then cDefZero else cAtk) tackleMove).1)) ∧
    ((if koState.turn_owner = some "LOCAL" then koStateAfter.remote_pokemon
        else koStateAfter.local_pokemon).map BattlePokemon.max_hp =
      some (if koState.turn_owner = some "LOCAL" then cDefZero else cAtk).max_hp) ∧
    (∀ rep, OutMsg.calcReport rep ∈ koMsgs → 0 ≤ rep.defender_hp_remaining) ∧
    (∀ (t : SMState) (msg : MsgDict) (lp2 rp2 : BattlePokemon) (dd hv : ℤ) (an : String),
      t.local_pokemon = some lp2 → t.remote_pokemon = some rp2 →
      dictGet "attacker" msg = some an → an = rp2.name →
      (dictGet "damage_dealt" msg).bind pyToInt = some dd →
      (dictGet "defender_hp_remaining" msg).bind pyToInt = some hv →
      (on_resolution_request t msg).local_pokemon = some {lp2 with hp := hv}) :=
  c4_hp_update_amended koState "Tackle" tackleMove cAtk cDefZero koStateAfter koMsgs
    rfl rfl koRun

/-- C6: with both reports held, the peer sends `CALCULATION_CONFIRM` iff the
two reports' `damage_dealt` and `defender_hp_remaining` agree as integers,
and otherwise sends `RESOLUTION_REQUEST` carrying the local report's
attacker, move_used, damage_dealt and defender_hp_remaining; receiving
`CALCULATION_CONFIRM` flips `turn_owner`, clears both per-turn report
buffers and returns to `WAITING_FOR_MOVE`. -/
theorem c6_reconciliation (s : SMState) (msg : MsgDict) (l : CalcReport)
    (rdmg rhp : ℤ)
    (hl : s.local_calc_report = some l)
    (hreq : require_fields msg
      ["attacker", "move_used", "damage_dealt", "defender_hp_remaining"] = true)
    (hd : (dictGet "damage_dealt" msg).bind pyToInt = some rdmg)
    (hh : (dictGet "defender_hp_remaining" msg).bind pyToInt = some rhp) :
    ((on_calculation_report s msg).2 = [OutMsg.calcConfirm] ↔
      (l.damage_dealt = rdmg ∧ l.defender_hp_remaining = rhp)) ∧
    (¬ (l.damage_dealt = rdmg ∧ l.defender_hp_remaining = rhp) →
      (on_calculation_report s msg).2 =
        [OutMsg.resolutionRequest l.attacker l.move_used
          (toString l.damage_dealt) (toString l.defender_hp_remaining)]) ∧
    ((on_calculation_report s msg).1.last_calc_report_remote = some msg) ∧
    (∀ t : SMState, on_calculation_confirm t =
      { t with
        turn_owner := some (if t.turn_owner = some "LOCAL" then "REMOTE" else "LOCAL")
        local_calc_report := none
        last_calc_report_remote := none
        state := "WAITING_FOR_MOVE" }) := by
  by_cases hc : l.damage_dealt = rdmg ∧ l.defender_hp_remaining = rhp
  · simp [on_calculation_report, hreq, hl, hd, hh, hc, on_calculation_confirm]
  · simp [on_calculation_report, hreq, hl, hd, hh, hc, on_calculation_confirm]

/-- State holding its local calculation report, awaiting the remote one. -/
def crState : SMState := { koState with local_calc_report := some koReport }

/-- A matching remote report (same integers as the local one). -/
def crMsg : MsgDict :=
  [("message_type", "CALCULATION_REPORT"), ("attacker", "Attacker"),
   ("move_used", "Tackle"), ("remaining_health", "10"), ("damage_dealt", "40"),
   ("defender_hp_remaining", "0"), ("status_message", "Attacker used Tackle!")]

/-- C6 (witness). -/
theorem c6_reconciliation_witness :
    ((on_calculation_report crState crMsg).2 = [OutMsg.calcConfirm] ↔
      (koReport.damage_dealt = 40 ∧ koReport.defender_hp_remaining = 0)) ∧
    (¬ (koReport.damage_dealt = 40 ∧ koReport.defender_hp_remaining = 0) →
      (on_calculation_report crState crMsg).2 =
        [OutMsg.resolutionRequest koReport.attacker koReport.move_used
          (toString koReport.damage_dealt) (toString koReport.defender_hp_remaining)]) ∧
    ((on_calculation_report crState crMsg).1.last_calc_report_remote = some crMsg) ∧
    (∀ t : SMState, on_calculation_confirm t =
      { t with
        turn_owner := some (if t.turn_owner = some "LOCAL" then "REMOTE" else "LOCAL")
        local_calc_report := none
        last_calc_report_remote := none
        state := "WAITING_FOR_MOVE" }) :=
  c6_reconciliation crState crMsg koReport 40 0 rfl (by decide) (by decide) (by decide)

/-- The predicate `':' not in key` survives a `dictInsert` whose new key also
satisfies it. -/
theorem all_dictInsert {K V : Type} [DecidableEq K] (P : K × V → Bool) (k : K) (v : V)
    (m : List (K × V)) (hm : m.all P = true) (hk : P (k, v) = true) :
    (dictInsert k v m).all P = true := by
  induction m with
  | nil => simp [dictInsert, hk]
  | cons p rest ih =>
    simp only [List.all_cons, Bool.and_eq_true] at hm
    by_cases hp : p.1 = k <;>
      simp [dictInsert, hp, hk, hm.1, hm.2, ih hm.2]

/-- C10: `send_reliable` and `send_reliable_to_many` mutate the caller's
`fields` mapping in place: afterwards `fields["sequence_number"]` holds the
freshly drawn sequence number (the counter plus one) while every other key is
unchanged, and the bytes sent and tracked per destination are the encoding of
the augmented mapping. -/
theorem c10_send_reliable_frame (s : RelState) (fields : Fields) (addr : Addr)
    (addrs : List Addr) (now : ℚ)
    (hkeys : fields.all (fun p => ¬ ':' ∈ p.1) = true) :
    (∃ b : PyStr,
      encode_message
          (dictInsert "sequence_number".toList (toString (s.seq + 1)).toList fields) = .ok b ∧
      send_reliable s fields addr now =
        ({ s with
            seq := s.seq + 1
            pending := dictInsert (s.seq + 1, addr) ⟨b, addr, now, 0⟩ s.pending },
         dictInsert "sequence_number".toList (toString (s.seq + 1)).toList fields,
         .ok (b, s.seq + 1)) ∧
      send_reliable_to_many s fields addrs now =
        ({ s with
            seq := s.seq + 1
            pending := addrs.foldl
              (fun p a => dictInsert (s.seq + 1, a) ⟨b, a, now, 0⟩ p) s.pending },
         dictInsert "sequence_number".toList (toString (s.seq + 1)).toList fields,
         .ok (b, s.seq + 1))) ∧
    (dictGet "sequence_number".toList
        (dictInsert "sequence_number".toList (toString (s.seq + 1)).toList fields) =
      some (toString (s.seq + 1)).toList) ∧
    (∀ k, k ≠ "sequence_number".toList →
      dictGet k (dictInsert "sequence_number".toList (toString (s.seq + 1)).toList fields) =
        dictGet k fields) := by
  have hall : (dictInsert "sequence_number".toList (toString (s.seq + 1)).toList
      fields).all (fun p => ¬ ':' ∈ p.1) = true :=
    all_dictInsert _ "sequence_number".toList (toString (s.seq + 1)).toList fields
      hkeys rfl
  have henc : encode_message
      (dictInsert "sequence_number".toList (toString (s.seq + 1)).toList fields) =
      .ok (joinLines
        ((dictInsert "sequence_number".toList (toString (s.seq + 1)).toList fields).map
          fun p => encodeLine p.1 p.2)) := by
    unfold encode_message
    rw [if_pos hall]
  refine ⟨⟨joinLines
      ((dictInsert "sequence_number".toList (toString (s.seq + 1)).toList fields).map
        fun p => encodeLine p.1 p.2), henc, ?_, ?_⟩,
    dictGet_insert_self _ _ _, fun k hk => dictGet_insert_ne _ _ _ _ hk⟩
  · simp only [send_reliable]
    rw [henc]
  · simp only [send_reliable_to_many]
    rw [henc]

/-- Fields mapping used for the reliability-layer witnesses. -/
def c10Fields : Fields := [("message_type".toList, "ACK".toList)]

/-- A fresh reliability state. -/
def c10Rel : RelState :=
  { timeout := 1/2
    max_retries := 3
    seq := 0
    pending := [] }

/-- C10 (witness). -/
theorem c10_send_reliable_frame_witness :
    (∃ b : PyStr,
      encode_message
          (dictInsert "sequence_number".toList (toString (c10Rel.seq + 1)).toList c10Fields) = .ok b ∧
      send_reliable c10Rel c10Fields ackAddr 0 =
        ({ c10Rel with
            seq := c10Rel.seq + 1
            pending := dictInsert (c10Rel.seq + 1, ackAddr) ⟨b, ackAddr, 0, 0⟩ c10Rel.pending },
         dictInsert "sequence_number".toList (toString (c10Rel.seq + 1)).toList c10Fields,
         .ok (b, c10Rel.seq + 1)) ∧
      send_reliable_to_many c10Rel c10Fields [ackAddr] 0 =
        ({ c10Rel with
            seq := c10Rel.seq + 1
            pending := [ackAddr].foldl
              (fun p a => dictInsert (c10Rel.seq + 1, a) ⟨b, a, 0, 0⟩ p) c10Rel.pending },
         dictInsert "sequence_number".toList (toString (c10Rel.seq + 1)).toList c10Fields,
         .ok (b, c10Rel.seq + 1))) ∧
    (dictGet "sequence_number".toList
        (dictInsert "sequence_number".toList (toString (c10Rel.seq + 1)).toList c10Fields) =
      some (toString (c10Rel.seq + 1)).toList) ∧
    (∀ k, k ≠ "sequence_number".toList →
      dictGet k (dictInsert "sequence_number".toList (toString (c10Rel.seq + 1)).toList c10Fields) =
        dictGet k c10Fields) :=
  c10_send_reliable_frame c10Rel c10Fields ackAddr [ackAddr] 0 (by decide)

/-- Reliability-layer states reachable from a fresh `ReliabilityLayer`
through any sequence of `send_reliable`, `send_reliable_to_many`,
`handle_ack` and `tick` operations (a raising `tick` also yields its
partially updated state). -/
inductive Reach : RelState → Prop where
  | init (t : ℚ) (mr : ℕ) : Reach ⟨t, mr, 0, []⟩
  | send (s : RelState) (f : Fields) (a : Addr) (now : ℚ) (h : Reach s) :
      Reach (send_reliable s f a now).1
  | sendMany (s : RelState) (f : Fields) (as : List Addr) (now : ℚ) (h : Reach s) :
      Reach (send_reliable_to_many s f as now).1
  | ack (s : RelState) (n : ℤ) (a : Addr) (h : Reach s) : Reach (handle_ack s n a)
  | tickStep (s : RelState) (now : ℚ) (h : Reach s) : Reach (tick s now).1

/-- The `tick` scan keeps every retry counter at or below `max_retries`. -/
theorem tickScan_retries (t : ℚ) (mr : ℕ) (now : ℚ)
    (l : List ((ℤ × Addr) × PendingRec))
    (hl : ∀ e ∈ l, e.2.retries ≤ mr) :
    ∀ e ∈ (tickScan t mr now l).1, e.2.retries ≤ mr := by
  induction l with
  | nil => simp [tickScan]
  | cons p rest ih =>
    intro e he
    obtain ⟨k, r⟩ := p
    have hrest : ∀ e ∈ rest, e.2.retries ≤ mr :=
      fun e' he' => hl e' (List.mem_cons_of_mem _ he')
    by_cases h1 : t < now - r.last
    · by_cases h2 : mr ≤ r.retries
      · simp only [tickScan, if_pos h1, if_pos h2] at he
        exact hl e he
      · simp only [tickScan, if_pos h1, if_neg h2, List.mem_cons] at he
        rcases he with he | he
        · subst he
          simp only []
          omega
        · exact ih hrest e he
    · simp only [tickScan, if_neg h1, List.mem_cons] at he
      rcases he with he | he
      · subst he
        exact hl _ (List.mem_cons_self _ _)
      · exact ih hrest e he

/-- Everything `tick` retransmits comes from a timed-out record whose retry
counter is strictly below `max_retries`. -/
theorem tickScan_sent (t : ℚ) (mr : ℕ) (now : ℚ)
    (l : List ((ℤ × Addr) × PendingRec)) :
    ∀ x ∈ (tickScan t mr now l).2.1,
      ∃ e ∈ l, t < now - e.2.last ∧ e.2.retries < mr ∧ x = (e.2.msg, e.2.addr) := by
  induction l with
  | nil =>
    intro x hx
    simp only [tickScan] at hx
    exact absurd hx (List.not_mem_nil x)
  | cons p rest ih =>
    intro x hx
    obtain ⟨k, r⟩ := p
    by_cases h1 : t < now - r.last
    · by_cases h2 : mr ≤ r.retries
      · simp only [tickScan, if_pos h1, if_pos h2, List.not_mem_nil] at hx
      · simp only [tickScan, if_pos h1, if_neg h2, List.mem_cons] at hx
        rcases hx with hx | hx
        · exact ⟨(k, r), List.mem_cons_self _ _, h1, lt_of_not_le h2, hx⟩
        · obtain ⟨e, he, h3, h4, h5⟩ := ih x hx
          exact ⟨e, List.mem_cons_of_mem _ he, h3, h4, h5⟩
    · simp only [tickScan, if_neg h1] at hx
      obtain ⟨e, he, h3, h4, h5⟩ := ih x hx
      exact ⟨e, List.mem_cons_of_mem _ he, h3, h4, h5⟩

/-- A timed-out record that has exhausted its retries makes the scan raise. -/
theorem tickScan_raise (t : ℚ) (mr : ℕ) (now : ℚ)
    (l : List ((ℤ × Addr) × PendingRec))
    (h : ∃ e ∈ l, t < now - e.2.last ∧ mr ≤ e.2.retries) :
    (tickScan t mr now l).2.2 = true := by
  induction l with
  | nil =>
    obtain ⟨e, he, -⟩ := h
    exact absurd he (List.not_mem_nil e)
  | cons p rest ih =>
    obtain ⟨k, r⟩ := p
    obtain ⟨e, he, h1, h2⟩ := h
    rcases List.mem_cons.mp he with he' | he'
    · rw [he'] at h1 h2
      have h1' : t < now - r.last := h1
      have h2' : mr ≤ r.retries := h2
      simp only [tickScan, if_pos h1']
      rw [if_pos h2']
    · by_cases hh1 : t < now - r.last
      · by_cases hh2 : mr ≤ r.retries
        · simp [tickScan, if_pos hh1, if_pos hh2]
        · simp only [tickScan, if_pos hh1, if_neg hh2]
          exact ih ⟨e, he', h1, h2⟩
      · simp only [tickScan, if_neg hh1]
        exact ih ⟨e, he', h1, h2⟩

/-- With `max_retries = 0` the scan never retransmits and never updates. -/
theorem tickScan_zero (t : ℚ) (now : ℚ) (l : List ((ℤ × Addr) × PendingRec)) :
    (tickScan t 0 now l).1 = l ∧ (tickScan t 0 now l).2.1 = [] := by
  induction l with
  | nil => simp [tickScan]
  | cons p rest ih =>
    obtain ⟨k, r⟩ := p
    by_cases h1 : t < now - r.last
    · simp [tickScan, if_pos h1, Nat.zero_le]
    · simp [tickScan, if_neg h1, ih.1, ih.2]

/-- Entries produced by the fan-out insertion loop. -/
theorem mem_foldl_dictInsert (addrs : List Addr) (sq : ℤ) (b : PyStr) (now : ℚ)
    (p0 : List ((ℤ × Addr) × PendingRec)) (e : (ℤ × Addr) × PendingRec)
    (he : e ∈ addrs.foldl (fun p a => dictInsert (sq, a) ⟨b, a, now, 0⟩ p) p0) :
    (∃ a, e = ((sq, a), ⟨b, a, now, 0⟩)) ∨ e ∈ p0 := by
  induction addrs generalizing p0 with
  | nil => exact Or.inr he
  | cons a rest ih =>
    rcases ih (dictInsert (sq, a) ⟨b, a, now, 0⟩ p0) he with h | h
    · exact Or.inl h
    · rcases mem_dictInsert _ _ _ _ h with h1 | h1
      · exact Or.inl ⟨a, h1⟩
      · exact Or.inr h1

/-- C9: under every sequence of `send_reliable`, `send_reliable_to_many`,
`handle_ack` and `tick` operations every pending record keeps
`retryCount ≤ maxRetries`; `tick` retransmits a timed-out record only while
its retry count is strictly below `max_retries` and raises
`ReliabilityError` for a timed-out record that has reached it; with
`max_retries = 0` a tick never retransmits and leaves the state unchanged
(the first timeout raises immediately). -/
theorem c9_retry_bound :
    (∀ s : RelState, Reach s → ∀ e ∈ s.pending, e.2.retries ≤ s.max_retries) ∧
    (∀ (s : RelState) (now : ℚ), ∀ x ∈ (tick s now).2.1,
      ∃ e ∈ s.pending, s.timeout < now - e.2.last ∧ e.2.retries < s.max_retries ∧
        x = (e.2.msg, e.2.addr)) ∧
    (∀ (s : RelState) (now : ℚ),
      (∃ e ∈ s.pending, s.timeout < now - e.2.last ∧ s.max_retries ≤ e.2.retries) →
      (tick s now).2.2 = true) ∧
    (∀ (s : RelState) (now : ℚ), s.max_retries = 0 →
      (tick s now).2.1 = [] ∧ (tick s now).1 = s) := by
  refine ⟨?_, ?_, ?_, ?_⟩
  · intro s hs
    induction hs with
    | init t mr => simp
    | send s f a now hs ih =>
      intro e he
      rcases hE : encode_message
          (dictInsert "sequence_number".toList (toString (s.seq + 1)).toList f) with u | b
      · simp only [send_reliable, hE] at he ⊢
        exact ih e he
      · simp only [send_reliable, hE] at he ⊢
        rcases mem_dictInsert _ _ _ _ he with h1 | h1
        · subst h1
          simp
        · exact ih e h1
    | sendMany s f as now hs ih =>
      intro e he
      rcases hE : encode_message
          (dictInsert "sequence_number".toList (toString (s.seq + 1)).toList f) with u | b
      · simp only [send_reliable_to_many, hE] at he ⊢
        exact ih e he
      · simp only [send_reliable_to_many, hE] at he ⊢
        rcases mem_foldl_dictInsert as (s.seq + 1) b now s.pending e he with h1 | h1
        · obtain ⟨a, ha⟩ := h1
          subst ha
          simp
        · exact ih e h1
    | ack s n a hs ih =>
      intro e he
      simp only [handle_ack] at he ⊢
      exact ih e (List.mem_of_mem_filter he)
    | tickStep s now hs ih =>
      intro e he
      simp only [tick] at he ⊢
      exact tickScan_retries s.timeout s.max_retries now s.pending ih e he
  · intro s now x hx
    simp only [tick] at hx
    exact tickScan_sent s.timeout s.max_retries now s.pending x hx
  · intro s now h
    simp only [tick]
    exact tickScan_raise s.timeout s.max_retries now s.pending h
  · intro s now h
    obtain ⟨t, mr, sq, p⟩ := s
    simp only at h
    subst h
    simp only [tick]
    exact ⟨(tickScan_zero t now p).2, by rw [(tickScan_zero t now p).1]⟩

/-- A pending record whose retries are exhausted (`retries = max_retries`). -/
def exhState : RelState :=
  { timeout := 1/2
    max_retries := 3
    seq := 1
    pending := [((1, ackAddr), ⟨['x'], ackAddr, 0, 3⟩)] }

/-- A layer configured with `max_retries = 0` holding one pending record. -/
def zeroRetryState : RelState :=
  { timeout := 1/2
    max_retries := 0
    seq := 1
    pending := [((1, ackAddr), ⟨['x'], ackAddr, 0, 0⟩)] }

/-- C9 (witness). -/
theorem c9_retry_bound_witness :
    (∀ e ∈ (⟨1/2, 3, 0, []⟩ : RelState).pending,
      e.2.retries ≤ (⟨1/2, 3, 0, []⟩ : RelState).max_retries) ∧
    (tick exhState 10).2.2 = true ∧
    ((tick zeroRetryState 10).2.1 = [] ∧ (tick zeroRetryState 10).1 = zeroRetryState) :=
  ⟨c9_retry_bound.1 _ (Reach.init (1/2) 3),
   c9_retry_bound.2.2.1 exhState 10
     ⟨((1, ackAddr), ⟨['x'], ackAddr, 0, 3⟩), List.mem_singleton.mpr rfl,
      by norm_num [exhState], by norm_num [exhState]⟩,
   c9_retry_bound.2.2.2 zeroRetryState 10 rfl⟩

/-- On a lowercase-stable ability list the code's `any(a.lower() == t)` test
is plain membership. -/
theorem any_pyLower_eq (l : List String) (t : String)
    (h : ∀ x ∈ l, pyLower x = x) :
    (l.any fun x => pyLower x = t) = decide (t ∈ l) := by
  induction l with
  | nil => simp
  | cons a rest ih =>
    simp only [List.any_cons, List.mem_cons]
    rw [h a (List.mem_cons_self _ _), ih (fun x hx => h x (List.mem_cons_of_mem _ hx))]
    by_cases hat : a = t
    · simp [hat]
    · have hta : ¬ t = a := fun e => hat e.symm
      simp [hat, hta]

/-- Truncation toward zero agrees with `floor` on nonnegative arguments. -/
theorem pyTrunc_eq_floor (q : ℚ) (h : 0 ≤ q) : pyTrunc q = ⌊q⌋ := if_pos h

/-- The effective power is nonnegative whenever `power` and `power_min` are. -/
theorem effective_power_nonneg (m : Move) (a : BattlePokemon)
    (hpow : 0 ≤ m.power) (hpmin : 0 ≤ m.power_min) :
    0 ≤ get_effective_move_power m a := by
  unfold get_effective_move_power
  split_ifs
  · exact le_trans hpmin (le_max_left _ _)
  · exact hpow

/-- C1: `calculate_damage` follows the spec §4.5 algorithm (transcribed as
`damage_spec`): 0 for status moves; attack/defense for physical moves with
`huge power` doubling; specialAttack/specialDefense for special moves with
the 1.3x boost consumption on positive counters; defense clamped to at
least 1; the defender's effectiveness entry for the move type (default 1,
halved by `thick fat` against fire/ice); HP-scaled power when `scaleWithHp`;
and `max(1, floor(power * atkStat * eff / defStat))`.  Hypotheses: the
category is one of the three legal tags, ability and type tags are
lower-case, and stats, effectiveness entries and powers are nonnegative (as
the spec's data model requires), so that truncation coincides with floor. -/
theorem c1_calculate_damage_follows_spec (a d : BattlePokemon) (m : Move)
    (hcat : m.damage_category = "physical" ∨ m.damage_category = "special" ∨
      m.damage_category = "status")
    (haab : ∀ x ∈ a.abilities, pyLower x = x)
    (hdab : ∀ x ∈ d.abilities, pyLower x = x)
    (htype : pyLower m.type = m.type)
    (hatk : 0 ≤ a.attack) (hspa : 0 ≤ a.special_attack)
    (heff : ∀ p ∈ d.effectiveness, 0 ≤ p.2)
    (hpow : 0 ≤ m.power) (hpmin : 0 ≤ m.power_min) :
    calculate_damage a d m = damage_spec a d m := by
  have hgd : 0 ≤ dictGetD m.type 1 d.effectiveness :=
    dictGetD_nonneg _ _ _ heff zero_le_one
  rcases hcat with hc | hc | hc
  · -- physical
    have hs1 : ¬ ("physical" = "status") := by decide
    have hs3 : ¬ ("physical" = "special") := by decide
    have hba : ¬ ("physical" = "special" ∧ 0 < a.special_attack_uses) :=
      fun hx => hs3 hx.1
    have hbd : ¬ ("physical" = "special" ∧ 0 < d.special_defense_uses) :=
      fun hx => hs3 hx.1
    simp only [calculate_damage, damage_spec, get_type_effectiveness,
      get_effective_move_power, hc, if_neg hs1, eq_self_iff_true, if_true,
      if_neg hs3, if_neg hba, if_neg hbd,
      any_pyLower_eq a.abilities "huge power" haab,
      any_pyLower_eq d.abilities "thick fat" hdab, htype, decide_eq_true_eq]
    have hA : 0 ≤ (if "huge power" ∈ a.abilities then a.attack * 2 else a.attack) := by
      split_ifs
      · positivity
      · exact hatk
    have hE : 0 ≤ (if "thick fat" ∈ d.abilities ∧ (m.type = "fire" ∨ m.type = "ice")
        then dictGetD m.type 1 d.effectiveness * (1/2)
        else dictGetD m.type 1 d.effectiveness) := by
      split_ifs
      · positivity
      · exact hgd
    have hD : (0 : ℚ) < max d.defense 1 := lt_of_lt_of_le zero_lt_one (le_max_right _ _)
    have hP : 0 ≤ (if m.scale_with_hp then
        max m.power_min (min m.power_max ((a.max_hp : ℚ) * m.hp_ratio)) else m.power) := by
      split_ifs
      · exact le_trans hpmin (le_max_left _ _)
      · exact hpow
    rw [pyTrunc_eq_floor _ (div_nonneg (mul_nonneg (mul_nonneg hP hA) hE) hD.le)]
    refine congrArg (fun z => (max 1 ⌊z⌋, a, d)) ?_
    split_ifs <;> ring_nf
  · -- special
    have hs1 : ¬ ("special" = "status") := by decide
    have hs2 : ¬ ("special" = "physical") := by decide
    have hDeff : (if 0 < d.special_defense_uses then
        {d with special_defense_uses := d.special_defense_uses - 1} else d).effectiveness
        = d.effectiveness := by split_ifs <;> rfl
    have hDab : (if 0 < d.special_defense_uses then
        {d with special_defense_uses := d.special_defense_uses - 1} else d).abilities
        = d.abilities := by split_ifs <;> rfl
    have hAmax : (if 0 < a.special_attack_uses then
        {a with special_attack_uses := a.special_attack_uses - 1} else a).max_hp
        = a.max_hp := by split_ifs <;> rfl
    simp only [calculate_damage, damage_spec, get_type_effectiveness,
      get_effective_move_power, hc, if_neg hs1, if_neg hs2, eq_self_iff_true,
      true_and, hDeff, hDab, hAmax,
      any_pyLower_eq d.abilities "thick fat" hdab, htype,
      decide_eq_true_eq]
    have hA : 0 ≤ (if 0 < a.special_attack_uses then a.special_attack * (13/10)
        else a.special_attack) := by
      split_ifs
      · positivity
      · exact hspa
    have hE : 0 ≤ (if "thick fat" ∈ d.abilities ∧ (m.type = "fire" ∨ m.type = "ice")
        then dictGetD m.type 1 d.effectiveness * (1/2)
        else dictGetD m.type 1 d.effectiveness) := by
      split_ifs
      · positivity
      · exact hgd
    have hD : (0 : ℚ) < max (if 0 < d.special_defense_uses
        then d.special_defense * (13/10) else d.special_defense) 1 :=
      lt_of_lt_of_le zero_lt_one (le_max_right _ _)
    have hP : 0 ≤ (if m.scale_with_hp then
        max m.power_min (min m.power_max ((a.max_hp : ℚ) * m.hp_ratio)) else m.power) := by
      split_ifs
      · exact le_trans hpmin (le_max_left _ _)
      · exact hpow
    rw [pyTrunc_eq_floor _ (div_nonneg (mul_nonneg (mul_nonneg hP hA) hE) hD.le)]
    refine congrArg₂ (fun z w => (max 1 ⌊z⌋, w)) ?_ rfl
    split_ifs <;> ring_nf
  · -- status
    simp [calculate_damage, damage_spec, hc]

/-- Attacker with special-attack boosts remaining. -/
def c1Atk : BattlePokemon :=
  { name := "A"
    max_hp := 30
    hp := 30
    attack := 10
    special_attack := 10
    defense := 8
    special_defense := 8
    types := ["fire"]
    abilities := []
    special_attack_uses := 2
    special_defense_uses := 0
    effectiveness := [] }

/-- Defender with special-defense boosts, `thick fat` and a fire weakness. -/
def c1Def : BattlePokemon :=
  { name := "D"
    max_hp := 30
    hp := 30
    attack := 10
    special_attack := 10
    defense := 8
    special_defense := 8
    types := ["grass"]
    abilities := ["thick fat"]
    special_attack_uses := 0
    special_defense_uses := 3
    effectiveness := [("fire", 2)] }

/-- C1 (witness). -/
theorem c1_calculate_damage_follows_spec_witness :
    calculate_damage c1Atk c1Def cFireMove = damage_spec c1Atk c1Def cFireMove :=
  c1_calculate_damage_follows_spec c1Atk c1Def cFireMove
    (Or.inr (Or.inl rfl))
    (by decide) (by decide) (by decide)
    (by decide) (by decide) (by decide) (by decide) (by decide)

/-- A newline starts a fresh line in `splitlines`. -/
theorem pySplitlines_cons_nl (cs : PyStr) :
    pySplitlines ('\n' :: cs) = [] :: pySplitlines cs := rfl

/-- Unfolding `splitlines` at a non-boundary head character. -/
theorem pySplitlines_cons_nb (c : Char) (cs : PyStr) (h : isLineBoundary c = false) :
    pySplitlines (c :: cs) =
      match pySplitlines cs with
      | [] => [[c]]
      | l :: ls => (c :: l) :: ls := by
  have hc : c ≠ '\r' := by
    rintro rfl
    simp [isLineBoundary] at h
  rw [pySplitlines.eq_def]
  split
  · rename_i heq
    exact absurd heq (List.cons_ne_nil c cs)
  · rename_i cs2 heq
    exact absurd (List.cons.inj heq).1 hc
  · rename_i c2 cs2 hno heq
    obtain ⟨h1, h2⟩ := List.cons.inj heq
    subst h1
    subst h2
    rw [if_neg (by simp [h])]

/-- A boundary-free nonempty string is a single line. -/
theorem pySplitlines_single (l : PyStr) (hne : l ≠ [])
    (hb : ∀ c ∈ l, isLineBoundary c = false) : pySplitlines l = [l] := by
  induction l with
  | nil => exact absurd rfl hne
  | cons c rest ih =>
    rw [pySplitlines_cons_nb c rest (hb c (List.mem_cons_self _ _))]
    rcases hr : rest with _ | ⟨c2, rest2⟩
    · simp [pySplitlines]
    · rw [← hr, ih (by rw [hr]; exact List.cons_ne_nil _ _)
        (fun x hx => hb x (List.mem_cons_of_mem _ hx))]

/-- `splitlines` peels one boundary-free line off a newline join. -/
theorem pySplitlines_append_nl (l rest : PyStr)
    (hb : ∀ c ∈ l, isLineBoundary c = false) :
    pySplitlines (l ++ '\n' :: rest) = l :: pySplitlines rest := by
  induction l with
  | nil => simp [pySplitlines_cons_nl]
  | cons c l2 ih =>
    rw [List.cons_append, pySplitlines_cons_nb c _ (hb c (List.mem_cons_self _ _)),
      ih (fun x hx => hb x (List.mem_cons_of_mem _ hx))]

/-- `splitlines` of a newline join of boundary-free nonempty lines. -/
theorem pySplitlines_joinLines : ∀ lines : List PyStr,
    (∀ l ∈ lines, l ≠ [] ∧ ∀ c ∈ l, isLineBoundary c = false) →
    pySplitlines (joinLines lines) = lines := by
  intro lines
  induction lines with
  | nil => intro _; rfl
  | cons l rest ih =>
    intro h
    rcases hr : rest with _ | ⟨l2, rest2⟩
    · obtain ⟨h1, h2⟩ := h l (List.mem_cons_self _ _)
      simpa [joinLines] using pySplitlines_single l h1 h2
    · subst hr
      rw [show joinLines (l :: l2 :: rest2) = l ++ '\n' :: joinLines (l2 :: rest2) from rfl]
      rw [pySplitlines_append_nl l _ (h l (List.mem_cons_self _ _)).2]
      rw [ih (fun x hx => h x (List.mem_cons_of_mem _ hx))]

/-- Replacing newlines by spaces is the identity on boundary-free strings. -/
theorem map_replace_nl (v : PyStr) (h : ∀ c ∈ v, isLineBoundary c = false) :
    v.map (fun c => if c = '\n' then ' ' else c) = v := by
  induction v with
  | nil => rfl
  | cons c rest ih =>
    have hc : ¬ (c = '\n') := by
      intro e
      subst e
      have := h '\n' (List.mem_cons_self _ _)
      simp [isLineBoundary] at this
    simp [hc, ih (fun x hx => h x (List.mem_cons_of_mem _ hx))]

/-- An element not satisfying the predicate survives `dropWhile`. -/
theorem mem_dropWhile {α : Type} (p : α → Bool) (l : List α) (c : α)
    (hc : c ∈ l) (hp : p c = false) : c ∈ l.dropWhile p := by
  induction l with
  | nil => cases hc
  | cons a rest ih =>
    by_cases ha : p a = true
    · simp only [List.dropWhile_cons, ha, if_true]
      rcases List.mem_cons.mp hc with h1 | h1
      · subst h1
        rw [hp] at ha
        cases ha
      · exact ih h1
    · simp only [List.dropWhile_cons, ha, if_false]
      exact hc

/-- A non-whitespace character survives `pyStrip`. -/
theorem mem_pyStrip (l : PyStr) (c : Char) (hc : c ∈ l) (hs : pyIsSpace c = false) :
    c ∈ pyStrip l := by
  rw [pyStrip, List.mem_reverse]
  exact mem_dropWhile _ _ _ (List.mem_reverse.mpr (mem_dropWhile _ _ _ hc hs)) hs

/-- A string containing a non-whitespace character does not strip to blank. -/
theorem pyStrip_ne_nil (l : PyStr) (c : Char) (hc : c ∈ l) (hs : pyIsSpace c = false) :
    ¬ (pyStrip l = []) := by
  intro h
  have := mem_pyStrip l c hc hs
  rw [h] at this
  cases this

/-- Splitting an encoded line at the separator recovers key and value when
the key is colon-free. -/
theorem splitOnColonSpace_append (k v : PyStr) (hk : ¬ ':' ∈ k) :
    splitOnColonSpace (k ++ ':' :: ' ' :: v) = some (k, v) := by
  induction k with
  | nil => simp [splitOnColonSpace]
  | cons c k2 ih =>
    have hc : ¬ (c = ':') := fun e => hk (by simp [e])
    have hk2 : ¬ ':' ∈ k2 := fun e => hk (List.mem_cons_of_mem _ e)
    simp [splitOnColonSpace, hc, ih hk2]

/-- Inserting a fresh key appends the pair. -/
theorem dictInsert_append {K V : Type} [DecidableEq K] (k : K) (v : V)
    (m : List (K × V)) (h : ¬ k ∈ m.map Prod.fst) :
    dictInsert k v m = m ++ [(k, v)] := by
  induction m with
  | nil => rfl
  | cons p rest ih =>
    have h2 : ¬ k ∈ rest.map Prod.fst := by
      intro e
      exact h (by simp only [List.map_cons, List.mem_cons]; exact Or.inr e)
    have hp : ¬ (p.1 = k) := by
      intro e
      exact h (by simp only [List.map_cons, List.mem_cons]; exact Or.inl e.symm)
    simp [dictInsert, hp, ih h2]

/-- A newline join starting with a nonempty line is nonempty. -/
theorem joinLines_cons_ne_nil (l : PyStr) (ls : List PyStr) (h : l ≠ []) :
    ¬ (joinLines (l :: ls) = []) := by
  cases ls with
  | nil => simpa [joinLines]
  | cons l2 ls2 =>
    rw [show joinLines (l :: l2 :: ls2) = l ++ '\n' :: joinLines (l2 :: ls2) from rfl]
    simp

/-- Decoding the encoded lines of a well-formed mapping appends it to the
accumulated dict. -/
theorem decodeLines_append : ∀ (m acc : Fields),
    (∀ p ∈ m, ¬ ':' ∈ p.1 ∧ pyStrip p.1 = p.1 ∧ pyStrip p.2 = p.2 ∧
      ∀ c ∈ p.2, isLineBoundary c = false) →
    (∀ p ∈ m, ¬ p.1 ∈ acc.map Prod.fst) →
    (m.map Prod.fst).Nodup →
    decodeLines acc (m.map fun p => encodeLine p.1 p.2) = .ok (acc ++ m) := by
  intro m
  induction m with
  | nil =>
    intro acc _ _ _
    simp [decodeLines]
  | cons p rest ih =>
    intro acc hm hdisj hnod
    obtain ⟨k, v⟩ := p
    obtain ⟨hk1, hk2, hv1, hv2⟩ := hm (k, v) (List.mem_cons_self _ _)
    have hline : encodeLine k v = k ++ ':' :: ' ' :: v := by
      rw [encodeLine, map_replace_nl v hv2]
    have hsplit : splitOnColonSpace (k ++ ':' :: ' ' :: v) = some (k, v) :=
      splitOnColonSpace_append k v hk1
    have hcolon : (':' : Char) ∈ k ++ ':' :: ' ' :: v := by simp
    have hblank : ¬ (pyStrip (k ++ ':' :: ' ' :: v) = []) :=
      pyStrip_ne_nil _ ':' hcolon (by decide)
    simp only [List.map_cons, decodeLines, hline, hsplit, if_neg hblank, hk2, hv1]
    have hknotin : ¬ k ∈ acc.map Prod.fst := hdisj (k, v) (List.mem_cons_self _ _)
    rw [dictInsert_append k v acc hknotin]
    have hnodup : ¬ k ∈ rest.map Prod.fst ∧ (rest.map Prod.fst).Nodup := by
      rw [List.map_cons, List.nodup_cons] at hnod
      exact hnod
    rw [ih (acc ++ [(k, v)])
      (fun q hq => hm q (List.mem_cons_of_mem _ hq))
      (fun q hq => by
        intro hmem
        rw [List.map_append, List.mem_append] at hmem
        rcases hmem with h1 | h1
        · exact hdisj q (List.mem_cons_of_mem _ hq) h1
        · simp only [List.map_cons, List.map_nil, List.mem_singleton] at h1
          exact hnodup.1 (h1 ▸ List.mem_map_of_mem Prod.fst hq))
      hnodup.2]
    simp

/-- C8 (counterexample): the decoder strips whitespace from values
(`v.strip()`), so a mapping whose value has a leading space — keys
colon-free, values free of literal newlines, as the claim requires — does
not round-trip: the value `" v"` decodes as `"v"`. -/
theorem c8_roundtrip_counterexample :
    (∀ p ∈ [((['k'] : PyStr), ([' ', 'v'] : PyStr))], ¬ ':' ∈ p.1 ∧ ¬ '\n' ∈ p.2) ∧
    (encode_message [(['k'], [' ', 'v'])]).bind decode_message =
      .ok [((['k'] : PyStr), (['v'] : PyStr))] ∧
    ¬ ([((['k'] : PyStr), (['v'] : PyStr))] = [(['k'], [' ', 'v'])]) := by
  exact ⟨by decide, by rfl, by decide⟩

/-- C8 (amended): `decode_message (encode_message m) = m` for every mapping
whose keys are colon-free, strip-stable and free of line-boundary
characters, and whose values are strip-stable and free of line-boundary
characters (which subsumes "no literal newline"). -/
theorem c8_roundtrip_amended (m : Fields)
    (hm : ∀ p ∈ m, ¬ ':' ∈ p.1 ∧ pyStrip p.1 = p.1 ∧
      (∀ c ∈ p.1, isLineBoundary c = false) ∧
      pyStrip p.2 = p.2 ∧ (∀ c ∈ p.2, isLineBoundary c = false))
    (hnod : (m.map Prod.fst).Nodup) :
    (encode_message m).bind decode_message = .ok m := by
  have hall : m.all (fun p => ¬ ':' ∈ p.1) = true := by
    rw [List.all_eq_true]
    intro p hp
    exact decide_eq_true (hm p hp).1
  rw [encode_message, if_pos hall]
  show decode_message (joinLines (m.map fun p => encodeLine p.1 p.2)) = .ok m
  cases m with
  | nil => rfl
  | cons p rest =>
    have hlines : ∀ l ∈ (p :: rest).map (fun q => encodeLine q.1 q.2),
        l ≠ [] ∧ ∀ c ∈ l, isLineBoundary c = false := by
      intro l hl
      obtain ⟨q, hq, rfl⟩ := List.mem_map.mp hl
      obtain ⟨hq1, hq2, hq3, hq4, hq5⟩ := hm q hq
      rw [encodeLine, map_replace_nl q.2 hq5]
      constructor
      · simp
      · intro c hc
        rcases List.mem_append.mp hc with h1 | h1
        · exact hq3 c h1
        · rcases List.mem_cons.mp h1 with h2 | h2
          · subst h2
            decide
          · rcases List.mem_cons.mp h2 with h3 | h3
            · subst h3
              decide
            · exact hq5 c h3
    have hpne : encodeLine p.1 p.2 ≠ [] := by
      simp [encodeLine]
    rw [decode_message, if_neg (by
      simpa using joinLines_cons_ne_nil (encodeLine p.1 p.2)
        (rest.map fun q => encodeLine q.1 q.2) hpne)]
    rw [pySplitlines_joinLines _ hlines]
    rw [decodeLines_append (p :: rest) []
      (fun q hq => by
        obtain ⟨h1, h2, h3, h4, h5⟩ := hm q hq
        exact ⟨h1, h2, h4, h5⟩)
      (fun q hq => by simp)
      hnod]
    simp

/-- C8 (witness for the amended theorem). -/
theorem c8_roundtrip_amended_witness :
    (encode_message [("message_type".toList, "ACK".toList),
        ("ack_number".toList, "7".toList)]).bind decode_message =
      .ok [("message_type".toList, "ACK".toList), ("ack_number".toList, "7".toList)] :=
  c8_roundtrip_amended _ (by decide) (by decide)

end PokeRFC
